import Mathlib

set_option linter.unusedVariables false

/-!
Verification of the attribute-value verification module of PBS Pro,
`src/lib/Libecl/ecl_verify_values.c`.

C strings are modelled as `List Char` (the characters before the NUL
terminator; the values handled by the module contain no interior NUL,
except for the NUL bytes the preemption-target scanner itself writes,
which the model simulates explicitly with `List.set`).  A `char *` that
may be NULL is `Option (List Char)`.  The `err_msg` in/out parameter is
threaded explicitly: each verifier takes the current message slot and
returns the pair (error code, message slot).

Memory allocation is modelled by a boolean oracle `alloc`: `true` means
every allocation in the run succeeds, `false` means every allocation
fails.  External collaborators (grammar parsers, the definition-table
lookup, error-code-to-text translation) are modelled as function
parameters or, where their behaviour is fixed, as definitions marked
`Modelled from the spec`.
-/

/-- C `isspace` restricted to the six standard white-space characters. -/
def isspaceC (c : Char) : Bool :=
  c == ' ' || c == '\t' || c == '\n' || c == '\x0b' || c == '\x0c' || c == '\r'

/-- C `tolower` on ASCII letters. -/
def lowerChar (c : Char) : Char :=
  if 'A' ≤ c ∧ c ≤ 'Z' then Char.ofNat (c.toNat + 32) else c

/-- Lower-case an entire string, as the case-folding loop in
`verify_value_preempt_targets` does. -/
def lowerList (l : List Char) : List Char :=
  l.map lowerChar

/-- The NUL byte that the preemption-target scanner temporarily writes
over `=` and `,` characters. -/
def nulChar : Char := Char.ofNat 0

/-- Modelled from the spec: the error-code taxonomy (`pbs_error.h` is not
part of the visible source).  Only `PBSE_NONE = 0`, positivity and
pairwise distinctness of the other codes are relied upon. -/
def PBSE_NONE : Int := 0

/-- Modelled from the spec: rejection code for a bad or missing host in an
ACL entry. -/
def PBSE_BADHOST : Int := 15008

/-- Modelled from the spec: the system/allocation failure code. -/
def PBSE_SYSTEM : Int := 15010

/-- Modelled from the spec: internal error code (NULL attribute). -/
def PBSE_INTERNAL : Int := 15011

/-- Modelled from the spec: the generic bad-attribute-value rejection
code. -/
def PBSE_BADATVAL : Int := 15014

/-- Modelled from the spec: job-name-too-long rejection code. -/
def PBSE_JOBNBIG : Int := 15023

/-- Modelled from the spec: attribute-value-out-of-range rejection code
(returned for a bad array-job range). -/
def PBSE_ATVALERANGE : Int := 15030

/-- Modelled from the spec: bad minimum-license-count rejection code. -/
def PBSE_LICENSE_MIN_BADVAL : Int := 15171

/-- Modelled from the spec: bad maximum-license-count rejection code. -/
def PBSE_LICENSE_MAX_BADVAL : Int := 15172

/-- Modelled from the spec: bad license-linger rejection code. -/
def PBSE_LICENSE_LINGER_BADVAL : Int := 15173

/-- Modelled from the spec: batch request type codes (`batch_request.h`
is not part of the visible source).  Only their pairwise distinctness is
relied upon. -/
def PBS_BATCH_QueueJob : Int := 1

/-- Modelled from the spec: the modify-job batch request type. -/
def PBS_BATCH_ModifyJob : Int := 11

/-- Modelled from the spec: the status-job batch request type. -/
def PBS_BATCH_StatusJob : Int := 19

/-- Modelled from the spec: the select/query batch request type. -/
def PBS_BATCH_SelectJobs : Int := 20

/-- Modelled from the spec: the submit-reservation batch request type. -/
def PBS_BATCH_SubmitResv : Int := 70

/-- Modelled from the spec: the `EQ` comparison operator of `enum
batch_op`. -/
def BATCH_OP_EQ : Int := 4

/-- Modelled from the spec: the `NE` comparison operator of `enum
batch_op`. -/
def BATCH_OP_NE : Int := 5

/-- The keyword `ATTR_l` = "Resource_List" (from `pbs_ifl.h`, named in
the spec's preemption-target grammar). -/
def ATTR_l : List Char := "Resource_List".toList

/-- The keyword `ATTR_queue` = "queue" (from `pbs_ifl.h`, named in the
spec's preemption-target grammar). -/
def ATTR_queue : List Char := "queue".toList

/-- The literal `TARGET_NONE` = "NONE" accepted by the preemption-target
verifier. -/
def TARGET_NONE : List Char := "NONE".toList

/-- Modelled from the spec: the process-wide configured maximum license
count `ecl_pbs_max_licenses = PBS_MAX_LICENSING_LICENSES`; only its
non-negativity is relied upon. -/
def ecl_pbs_max_licenses : Int := 10000000

/-- Digit-accumulation loop of C `atoi`/`atol`: consume leading decimal
digits, stop at the first non-digit. -/
def atoiDigits : List Char → Int → Int
  | [], acc => acc
  | c :: t, acc =>
    if c.isDigit then atoiDigits t (acc * 10 + ((c.toNat : Int) - ('0'.toNat : Int)))
    else acc

/-- Strip one optional leading sign, as C `atoi`/`atol` do. -/
def stripSign : List Char → List Char
  | '-' :: t => t
  | '+' :: t => t
  | l => l

/-- Whether the stripped string started with a minus sign. -/
def isNegSign : List Char → Bool
  | '-' :: _ => true
  | _ => false

/-- C `atoi`/`atol`: skip white space, optional sign, then a decimal
digit run; a string with no leading digits parses as 0.  Overflow is not
modelled (the module only compares against small bounds). -/
def atoiChars (v : List Char) : Int :=
  let v1 := v.dropWhile isspaceC
  let mag := atoiDigits (stripSign v1) 0
  if isNegSign v1 then -mag else mag

/-- The `struct attropl` fields used by this module. -/
structure Attropl where
  name : List Char
  resource : Option (List Char) := none
  value : Option (List Char) := none
  op : Int := 0

/-- One `ecl_attribute_def` table entry: the capability pair of an
optional datatype checker and an optional value checker.  A checker
receives the scratch attribute and the current message slot and returns
(error code, message slot), exactly like the C function pointers. -/
structure EclAttrDef where
  at_name : List Char
  at_verify_datatype : Option (Attropl → Option (List Char) → Int × Option (List Char)) := none
  at_verify_value : Option (Int → Int → Int → Attropl → Option (List Char) → Int × Option (List Char)) := none

/-- Modelled from the spec: `ecl_find_resc_def` — look a name up in a
definition table, `find(name) -> optional ResourceDefinition` (the
function lives outside the visible source). -/
def eclFindRescDef (defs : List EclAttrDef) (name : List Char) : Option EclAttrDef :=
  defs.find? (fun d => d.at_name == name)

/-- Modelled from the spec: `pbse_to_txt` — error-code-to-text
translation, external to the visible source; it yields descriptive text
for the nonzero codes and nothing for 0. -/
def pbse_to_txt (e : Int) : Option (List Char) :=
  if e = 0 then none else some ("Illegal attribute or resource value".toList)

/-- `verify_value_user_list`: delegates to the external `parse_at_list`
(modelled as a parameter returning `true` on parse failure). -/
def verify_value_user_list (parse_at_list : List Char → Bool → Bool → Bool)
    (batch_request parent_object cmd : Int) (value : Option (List Char)) : Int :=
  match value with
  | none => PBSE_BADATVAL
  | some v =>
    if v = [] then PBSE_BADATVAL
    else if batch_request = PBS_BATCH_SelectJobs then
      if parse_at_list v false false then PBSE_BADATVAL else PBSE_NONE
    else
      if parse_at_list v true false then PBSE_BADATVAL else PBSE_NONE

/-- `verify_value_authorized_users`: `parse_at_list(value, FALSE, FALSE)`. -/
def verify_value_authorized_users (parse_at_list : List Char → Bool → Bool → Bool)
    (batch_request parent_object cmd : Int) (value : Option (List Char)) : Int :=
  match value with
  | none => PBSE_BADATVAL
  | some v =>
    if v = [] then PBSE_BADATVAL
    else if parse_at_list v false false then PBSE_BADATVAL else PBSE_NONE

/-- `verify_value_dependlist`: allocates a buffer, delegates to the
external `parse_depend_list` (modelled as a parameter producing the
expanded list), and replaces the value on success.  Returns (code,
resulting value slot). -/
def verify_value_dependlist (parse_depend_list : List Char → Option (List Char))
    (alloc : Bool) (batch_request parent_object cmd : Int)
    (value : Option (List Char)) : Int × Option (List Char) :=
  match value with
  | none => (PBSE_BADATVAL, none)
  | some v =>
    if v = [] then (PBSE_BADATVAL, some v)
    else if ¬ alloc then (-1, some v)
    else match parse_depend_list v with
      | none => (PBSE_BADATVAL, some v)
      | some expanded => (PBSE_NONE, some expanded)

/-- `verify_value_path`: allocates the output buffer first (allocation
failure yields `PBSE_SYSTEM`), then delegates to the external
`prepare_path` (a parameter producing the normalized path) and replaces
the value on success.  Returns (code, resulting value slot). -/
def verify_value_path (prepare_path : List Char → Option (List Char))
    (alloc : Bool) (batch_request parent_object cmd : Int)
    (value : Option (List Char)) : Int × Option (List Char) :=
  if ¬ alloc then (PBSE_SYSTEM, value)
  else match value with
  | none => (PBSE_BADATVAL, none)
  | some v =>
    if v = [] then (PBSE_BADATVAL, some v)
    else match prepare_path v with
      | none => (PBSE_BADATVAL, some v)
      | some out => (PBSE_NONE, some out)

/-- `verify_value_jrange`: delegates to the external `chk_Jrange`
(modelled as a parameter returning 0 ok, 1 malformed, 2 out of range). -/
def verify_value_jrange (chk_Jrange : List Char → Int)
    (batch_request parent_object cmd : Int) (value : Option (List Char)) : Int :=
  match value with
  | none => PBSE_BADATVAL
  | some v =>
    if v = [] then PBSE_BADATVAL
    else
      let ret := chk_Jrange v
      if ret = 1 then PBSE_BADATVAL
      else if ret = 2 then PBSE_ATVALERANGE
      else PBSE_NONE

/-- `verify_value_jobname`: empty names are allowed only for status and
select requests; numeric-leading names are allowed for queue, modify,
reservation-submit and select requests; the external `check_job_name` is
a parameter returning 0 ok, -1 malformed, -2 too long. -/
def verify_value_jobname (check_job_name : List Char → Bool → Int)
    (batch_request parent_object cmd : Int) (value : Option (List Char)) : Int :=
  match value with
  | none => PBSE_BADATVAL
  | some v =>
    if v = [] then
      if batch_request = PBS_BATCH_StatusJob ∨ batch_request = PBS_BATCH_SelectJobs then
        PBSE_NONE
      else PBSE_BADATVAL
    else
      let chk_alpha : Bool :=
        if batch_request = PBS_BATCH_QueueJob ∨ batch_request = PBS_BATCH_ModifyJob ∨
           batch_request = PBS_BATCH_SubmitResv ∨ batch_request = PBS_BATCH_SelectJobs
        then false else true
      let ret := check_job_name v chk_alpha
      if ret = -1 then PBSE_BADATVAL
      else if ret = -2 then PBSE_JOBNBIG
      else PBSE_NONE

/-- Grammar scan of `verify_value_checkpoint`: returns the final position
of the scan pointer `pc` (the whole value in the one-character branch,
the empty tail in the `c=`/`w=` branch), or `none` on a grammar
violation. -/
def checkpointScan (v : List Char) : Option (List Char) :=
  if v.length = 1 then
    match v with
    | c :: _ =>
      if c ≠ 'n' ∧ c ≠ 's' ∧ c ≠ 'c' ∧ c ≠ 'w' ∧ c ≠ 'u' then none else some v
    | [] => none
  else
    match v with
    | c0 :: c1 :: rest =>
      if ¬ ((c0 = 'c' ∨ c0 = 'w') ∧ c1 = '=') then none
      else if rest = [] then none
      else if rest.dropWhile Char.isDigit ≠ [] then none
      else some []
    | _ => none

/-- `verify_value_checkpoint`: the one-character forms `n s c w u`, or
`c=<digits>` / `w=<digits>`; under a select request a bare `u` is legal
only with the `EQ`/`NE` comparison operators (in the multi-character
branch the scan pointer `pc` ends on the terminating NUL, so that final
check compares the empty string). -/
def verify_value_checkpoint (batch_request parent_object cmd : Int) (op : Int)
    (value : Option (List Char)) : Int :=
  match value with
  | none => PBSE_BADATVAL
  | some v =>
    if v = [] then PBSE_BADATVAL
    else
      match checkpointScan v with
      | none => PBSE_BADATVAL
      | some pcRest =>
        if batch_request = PBS_BATCH_SelectJobs ∧ pcRest = ['u'] ∧
           op ≠ BATCH_OP_EQ ∧ op ≠ BATCH_OP_NE
        then PBSE_BADATVAL
        else PBSE_NONE

/-- `verify_value_hold`: count the occurrences of each legal hold flag,
rejecting any other character, then apply the two mutual-exclusion
checks. -/
def holdLoop : List Char → Nat → Nat → Nat → Nat → Nat → Int
  | [], u_cnt, o_cnt, s_cnt, p_cnt, n_cnt =>
    if n_cnt ≠ 0 ∧ u_cnt + o_cnt + s_cnt + p_cnt ≠ 0 then PBSE_BADATVAL
    else if p_cnt ≠ 0 ∧ u_cnt + o_cnt + s_cnt + n_cnt ≠ 0 then PBSE_BADATVAL
    else PBSE_NONE
  | c :: t, u_cnt, o_cnt, s_cnt, p_cnt, n_cnt =>
    if c = 'u' then holdLoop t (u_cnt + 1) o_cnt s_cnt p_cnt n_cnt
    else if c = 'o' then holdLoop t u_cnt (o_cnt + 1) s_cnt p_cnt n_cnt
    else if c = 's' then holdLoop t u_cnt o_cnt (s_cnt + 1) p_cnt n_cnt
    else if c = 'p' then holdLoop t u_cnt o_cnt s_cnt (p_cnt + 1) n_cnt
    else if c = 'n' then holdLoop t u_cnt o_cnt s_cnt p_cnt (n_cnt + 1)
    else PBSE_BADATVAL

/-- `verify_value_hold` entry point. -/
def verify_value_hold (batch_request parent_object cmd : Int)
    (value : Option (List Char)) : Int :=
  match value with
  | none => PBSE_BADATVAL
  | some v =>
    if v = [] then PBSE_BADATVAL
    else holdLoop v 0 0 0 0 0

/-- `verify_value_joinpath`: the value must be one of `oe`, `eo`, `n`. -/
def verify_value_joinpath (batch_request parent_object cmd : Int)
    (value : Option (List Char)) : Int :=
  match value with
  | none => PBSE_BADATVAL
  | some v =>
    if v = [] then PBSE_BADATVAL
    else if v ≠ "oe".toList ∧ v ≠ "eo".toList ∧ v ≠ "n".toList then PBSE_BADATVAL
    else PBSE_NONE

/-- `verify_value_keepfiles`: the value must be one of `o`, `e`, `oe`,
`eo`, `n`. -/
def verify_value_keepfiles (batch_request parent_object cmd : Int)
    (value : Option (List Char)) : Int :=
  match value with
  | none => PBSE_BADATVAL
  | some v =>
    if v = [] then PBSE_BADATVAL
    else if v ≠ "o".toList ∧ v ≠ "e".toList ∧ v ≠ "oe".toList ∧
            v ≠ "eo".toList ∧ v ≠ "n".toList then PBSE_BADATVAL
    else PBSE_NONE

/-- Character loop of `verify_value_mailpoints`. -/
def mailpointsChars (forResv : Bool) : List Char → Int
  | [] => PBSE_NONE
  | c :: t =>
    if forResv then
      if c ≠ 'a' ∧ c ≠ 'b' ∧ c ≠ 'e' ∧ c ≠ 'c' then PBSE_BADATVAL
      else mailpointsChars forResv t
    else
      if c ≠ 'a' ∧ c ≠ 'b' ∧ c ≠ 'e' then PBSE_BADATVAL
      else mailpointsChars forResv t

/-- `verify_value_mailpoints`: advances the value pointer past leading
white space, then requires either the single flag `n` or a run of the
mail-point letters (with `c` additionally legal for a reservation
submit). -/
def verify_value_mailpoints (batch_request parent_object cmd : Int)
    (value : Option (List Char)) : Int :=
  match value with
  | none => PBSE_BADATVAL
  | some v =>
    if v = [] then PBSE_BADATVAL
    else
      let v1 := v.dropWhile isspaceC
      if v1 = [] then PBSE_BADATVAL
      else if v1 = "n".toList then PBSE_NONE
      else mailpointsChars (batch_request = PBS_BATCH_SubmitResv) v1

/-- `verify_value_mailusers`: `parse_at_list(value, FALSE, FALSE)`. -/
def verify_value_mailusers (parse_at_list : List Char → Bool → Bool → Bool)
    (batch_request parent_object cmd : Int) (value : Option (List Char)) : Int :=
  match value with
  | none => PBSE_BADATVAL
  | some v =>
    if v = [] then PBSE_BADATVAL
    else if parse_at_list v false false then PBSE_BADATVAL else PBSE_NONE

/-- `verify_value_shellpathlist`: `parse_at_list(value, TRUE, TRUE)`. -/
def verify_value_shellpathlist (parse_at_list : List Char → Bool → Bool → Bool)
    (batch_request parent_object cmd : Int) (value : Option (List Char)) : Int :=
  match value with
  | none => PBSE_BADATVAL
  | some v =>
    if v = [] then PBSE_BADATVAL
    else if parse_at_list v true true then PBSE_BADATVAL else PBSE_NONE

/-- `verify_value_priority`: parse with `atoi`; outside [-1024, 1023] the
value is still accepted for a select request and rejected otherwise. -/
def verify_value_priority (batch_request parent_object cmd : Int)
    (value : Option (List Char)) : Int :=
  match value with
  | none => PBSE_BADATVAL
  | some v =>
    if v = [] then PBSE_BADATVAL
    else
      let i := atoiChars v
      if i < -1024 ∨ i > 1023 then
        if batch_request = PBS_BATCH_SelectJobs then PBSE_NONE else PBSE_BADATVAL
      else PBSE_NONE

/-- `verify_value_sandbox`: case-insensitive comparison against `HOME`,
`O_WORKDIR`, `PRIVATE`. -/
def verify_value_sandbox (batch_request parent_object cmd : Int)
    (value : Option (List Char)) : Int :=
  match value with
  | none => PBSE_BADATVAL
  | some v =>
    if v = [] then PBSE_BADATVAL
    else if lowerList v ≠ lowerList "HOME".toList ∧
            lowerList v ≠ lowerList "O_WORKDIR".toList ∧
            lowerList v ≠ lowerList "PRIVATE".toList then PBSE_BADATVAL
    else PBSE_NONE

/-- `verify_value_stagelist`: delegates to the external
`parse_stage_list` (a parameter returning `true` on failure). -/
def verify_value_stagelist (parse_stage_list : List Char → Bool)
    (batch_request parent_object cmd : Int) (value : Option (List Char)) : Int :=
  match value with
  | none => PBSE_BADATVAL
  | some v =>
    if v = [] then PBSE_BADATVAL
    else if parse_stage_list v then PBSE_BADATVAL else PBSE_NONE

/-- `verify_value_credname`: exact comparison against the fixed
credential-name list (the `PBS_CREDNAME_*` literals live outside the
visible source, so the list is a parameter). -/
def verify_value_credname (cred_list : List (List Char))
    (batch_request parent_object cmd : Int) (value : Option (List Char)) : Int :=
  match value with
  | none => PBSE_BADATVAL
  | some v =>
    if v = [] then PBSE_BADATVAL
    else if v ∈ cred_list then PBSE_NONE else PBSE_BADATVAL

/-- `verify_value_zero_or_positive`: `atol` then reject negatives. -/
def verify_value_zero_or_positive (batch_request parent_object cmd : Int)
    (value : Option (List Char)) : Int :=
  match value with
  | none => PBSE_BADATVAL
  | some v =>
    if v = [] then PBSE_BADATVAL
    else if atoiChars v < 0 then PBSE_BADATVAL else PBSE_NONE

/-- `verify_value_non_zero_positive`: `atol` then reject non-positives. -/
def verify_value_non_zero_positive (batch_request parent_object cmd : Int)
    (value : Option (List Char)) : Int :=
  match value with
  | none => PBSE_BADATVAL
  | some v =>
    if v = [] then PBSE_BADATVAL
    else if atoiChars v ≤ 0 then PBSE_BADATVAL else PBSE_NONE

/-- `verify_value_minlicenses`: `atol`, then bounds [0, max licenses]. -/
def verify_value_minlicenses (batch_request parent_object cmd : Int)
    (value : Option (List Char)) : Int :=
  match value with
  | none => PBSE_BADATVAL
  | some v =>
    if v = [] then PBSE_BADATVAL
    else if atoiChars v < 0 ∨ atoiChars v > ecl_pbs_max_licenses then
      PBSE_LICENSE_MIN_BADVAL
    else PBSE_NONE

/-- `verify_value_maxlicenses`: `atol`, then bounds [0, max licenses]. -/
def verify_value_maxlicenses (batch_request parent_object cmd : Int)
    (value : Option (List Char)) : Int :=
  match value with
  | none => PBSE_BADATVAL
  | some v =>
    if v = [] then PBSE_BADATVAL
    else if atoiChars v < 0 ∨ atoiChars v > ecl_pbs_max_licenses then
      PBSE_LICENSE_MAX_BADVAL
    else PBSE_NONE

/-- `verify_value_licenselinger`: `atol` then reject non-positives with
the linger-specific code. -/
def verify_value_licenselinger (batch_request parent_object cmd : Int)
    (value : Option (List Char)) : Int :=
  match value with
  | none => PBSE_BADATVAL
  | some v =>
    if v = [] then PBSE_BADATVAL
    else if atoiChars v ≤ 0 then PBSE_LICENSE_LINGER_BADVAL else PBSE_NONE

/-- `verify_value_queue_type`: the supplied value must be a
case-insensitive left segment of `Execution` or `Route`
(`strncasecmp(name, value, strlen(value))`). -/
def verify_value_queue_type (batch_request parent_object cmd : Int)
    (value : Option (List Char)) : Int :=
  match value with
  | none => PBSE_BADATVAL
  | some v =>
    if v = [] then PBSE_BADATVAL
    else if (lowerList v).isPrefixOf (lowerList "Execution".toList) ∨
            (lowerList v).isPrefixOf (lowerList "Route".toList) then PBSE_NONE
    else PBSE_BADATVAL

/-- Character loop of `verify_value_state`. -/
def stateChars : List Char → Int
  | [] => PBSE_NONE
  | c :: t =>
    if c ≠ 'E' ∧ c ≠ 'H' ∧ c ≠ 'Q' ∧ c ≠ 'R' ∧ c ≠ 'T' ∧ c ≠ 'W' ∧
       c ≠ 'S' ∧ c ≠ 'U' ∧ c ≠ 'B' ∧ c ≠ 'X' ∧ c ≠ 'F' ∧ c ≠ 'M' then PBSE_BADATVAL
    else stateChars t

/-- `verify_value_state`: every character must be a one-letter job-state
code; an empty value is tolerated only for a status request. -/
def verify_value_state (batch_request parent_object cmd : Int)
    (value : Option (List Char)) : Int :=
  match value with
  | none => PBSE_BADATVAL
  | some v =>
    if v = [] then
      if batch_request ≠ PBS_BATCH_StatusJob then PBSE_BADATVAL
      else stateChars v
    else stateChars v

/-- Position of the first occurrence of character `c` in `l`. -/
def chrIdx (c : Char) : List Char → Option Nat
  | [] => none
  | x :: t => if x = c then some 0 else (chrIdx c t).map (· + 1)

/-- Trailing-space trim of one ACL token (`while (*--p == ' ' && p !=
token); *(p + 1) = 0;` in `verify_value_mgr_opr_acl_check`): spaces are
dropped from the end, except that an all-space token keeps its first
character (the backward scan stops at `p == token` and the NUL goes at
`token + 1`). -/
def aclTrimTrailing (t : List Char) : List Char :=
  let r := (t.reverse.dropWhile (· == ' ')).reverse
  if r = [] then t.take 1 else r

/-- One `user@host` entry of the manager/operator ACL loop: trim
trailing then leading spaces, require an `@`; a host part beginning with
`*` skips resolution, otherwise the external `get_fullhostname`
(parameter; `none` models resolution failure) must succeed and the
resolved name must equal the host part case-insensitively
(`strncasecmp` against the `PBS_MAXHOSTNAME`-sized buffer). -/
def aclCheckEntry (get_fullhostname : List Char → Option (List Char))
    (token : List Char) : Int :=
  let token1 := aclTrimTrailing token
  let token2 := token1.dropWhile (· == ' ')
  match chrIdx '@' token2 with
  | none => PBSE_BADHOST
  | some i =>
    let entry := token2.drop (i + 1)
    if entry.head? = some '*' then PBSE_NONE
    else match get_fullhostname entry with
      | none => PBSE_BADHOST
      | some hostname =>
        if lowerList entry ≠ lowerList hostname then PBSE_BADHOST else PBSE_NONE

/-- The `while (token)` loop of `verify_value_mgr_opr_acl_check` over
the comma-separated entries (the NUL the trim writes lands at or before
the comma, so the later comma searches of the C scan see the original
separators; the split is therefore on the original value). -/
def aclLoop (get_fullhostname : List Char → Option (List Char)) :
    List (List Char) → Int
  | [] => PBSE_NONE
  | t :: rest =>
    let e := aclCheckEntry get_fullhostname t
    if e ≠ 0 then e else aclLoop get_fullhostname rest

/-- `verify_value_mgr_opr_acl_check` (non-Kerberos build): reject a
missing or empty value, `strdup` the value (failure returns -1), then
walk the comma-separated `user@host` entries. -/
def verify_value_mgr_opr_acl_check (get_fullhostname : List Char → Option (List Char))
    (alloc : Bool) (batch_request parent_object cmd : Int)
    (value : Option (List Char)) : Int :=
  match value with
  | none => PBSE_BADATVAL
  | some v =>
    if v = [] then PBSE_BADATVAL
    else if ¬ alloc then -1
    else aclLoop get_fullhostname (v.splitOn ',')

/-- Run a found definition's checkers in the order the C code uses in
both `verify_value_resc` and `verify_value_preempt_targets`: the
datatype checker first, and the value checker only when the datatype
checker reported success (a missing checker leaves the error code at
`PBSE_NONE`). -/
def runCheckers (prdef : EclAttrDef) (batch_request parent_object cmd : Int)
    (resc_attr : Attropl) (msg : Option (List Char)) : Int × Option (List Char) :=
  let r1 : Int × Option (List Char) := match prdef.at_verify_datatype with
    | none => (PBSE_NONE, msg)
    | some f => f resc_attr msg
  if r1.1 = 0 then
    match prdef.at_verify_value with
    | none => r1
    | some f => f batch_request parent_object cmd resc_attr r1.2
  else r1

/-- `verify_value_resc`: look the resource up in the definition table;
absence is not an error.  If present run the datatype checker and, only
if that succeeds, the value checker; on a failure with no message yet,
build `"<error text> <attribute>.<resource>"` — a failure of that
message allocation turns the result into -1 (with `err_code` set to
`PBSE_SYSTEM` in a local that is then discarded).  The NULL-`pattr`
branch of the C function is not modelled (the structure is passed by
value here). -/
def verify_value_resc (table : List EclAttrDef) (alloc : Bool)
    (batch_request parent_object cmd : Int) (pattr : Attropl)
    (err_msg : Option (List Char)) : Int × Option (List Char) :=
  match pattr.resource with
  | none => (PBSE_NONE, err_msg)
  | some res =>
    match eclFindRescDef table res with
    | none => (PBSE_NONE, err_msg)
    | some prdef =>
      let r2 := runCheckers prdef batch_request parent_object cmd
        { name := res, value := pattr.value } err_msg
      if r2.1 ≠ 0 ∧ r2.2 = none then
        match pbse_to_txt r2.1 with
        | none => r2
        | some p =>
          if alloc then
            (r2.1, some (p ++ [' '] ++ pattr.name ++ ['.'] ++ res))
          else (-1, r2.2)
      else r2

/-- Inner loop of `verify_value_select`: verify the decoded key/value
pairs of one chunk in order, returning from the whole verifier as soon
as one of them yields a strictly positive code (`if (rc > 0) return
rc;`) — a non-positive sub-result is carried on and eventually
discarded. -/
def selectPairs (table : List EclAttrDef) (alloc : Bool)
    (batch_request parent_object cmd : Int) (attrName : List Char) :
    List (List Char × List Char) → Option (List Char) → Int × Option (List Char)
  | [], m => (PBSE_NONE, m)
  | kv :: rest, m =>
    let r := verify_value_resc table alloc batch_request parent_object cmd
      { name := attrName, resource := some kv.1, value := some kv.2 } m
    if 0 < r.1 then r
    else selectPairs table alloc batch_request parent_object cmd attrName rest m

/-- Outer loop of `verify_value_select` over the '+'-separated chunks, in
order.  Each list element is the external chunk decoder's result for one
chunk: `none` when `parse_chunk` fails (Rejected outright), otherwise
the decoded key/value pairs. -/
def selectChunks (table : List EclAttrDef) (alloc : Bool)
    (batch_request parent_object cmd : Int) (attrName : List Char) :
    List (Option (List (List Char × List Char))) → Option (List Char) →
    Int × Option (List Char)
  | [], m => (PBSE_NONE, m)
  | none :: _, m => (PBSE_BADATVAL, m)
  | some pairs :: rest, m =>
    let r := selectPairs table alloc batch_request parent_object cmd attrName pairs m
    if 0 < r.1 then r
    else selectChunks table alloc batch_request parent_object cmd attrName rest r.2

/-- `verify_value_select`: reject an empty value, then walk the chunks.
The '+'-splitting (`parse_plus_spec`) and chunk decoding (`parse_chunk`)
are external grammar parsers; their combined output for `value` is the
`chunks` argument. -/
def verify_value_select (table : List EclAttrDef) (alloc : Bool)
    (batch_request parent_object cmd : Int) (attrName : List Char)
    (value : Option (List Char))
    (chunks : List (Option (List (List Char × List Char))))
    (err_msg : Option (List Char)) : Int × Option (List Char) :=
  match value with
  | none => (PBSE_BADATVAL, err_msg)
  | some v =>
    if v = [] then (PBSE_BADATVAL, err_msg)
    else selectChunks table alloc batch_request parent_object cmd attrName chunks err_msg

/-- C `strstr` on a NUL-free segment: the least offset at which `pat`
occurs as a left segment of the remaining list, or `none`. -/
def findSub : List Char → List Char → Option Nat
  | l, pat =>
    if pat.isPrefixOf l then some 0
    else match l with
      | [] => none
      | _ :: t => (findSub t pat).map (· + 1)

/-- `strstr(buf + s, pat)` as an absolute index into `buf`. -/
def strstrFrom (buf : List Char) (s : Nat) (pat : List Char) : Option Nat :=
  (findSub (buf.drop s) pat).map (· + s)

/-- `strchr(buf + s, c)` (also `strpbrk` with a one-character set) as an
absolute index into `buf`. -/
def strchrFrom (buf : List Char) (s : Nat) (c : Char) : Option Nat :=
  (chrIdx c (buf.drop s)).map (· + s)

/-- The characters of `l` from index `a` (inclusive) to `b` (exclusive). -/
def listSlice (l : List Char) (a b : Nat) : List Char :=
  (l.drop a).take (b - a)

/-- Outcome of one iteration of the preemption-target scanning loop, for
a keyword occurrence already located by `strstr`. -/
inductive StepOut where
  | ret : Int → Option (List Char) → List Char → StepOut
  | cont : List Char → Nat → Nat → Option (List Char) → StepOut

/-- Verdict stage of one scan iteration: on a checker failure, copy the
error text into the empty message slot (`*err_msg = malloc(...);
sprintf(*err_msg, "%s", msg)`) and return the code; on success continue
scanning from the `=` position (`val = p`). -/
def scanVerdict (r2 : Int × Option (List Char)) (buf3 : List Char) (p : Nat) : StepOut :=
  if r2.1 ≠ 0 then
    if r2.2 = none then
      match pbse_to_txt r2.1 with
      | none => .ret r2.1 none buf3
      | some t => .ret r2.1 (some t) buf3
    else .ret r2.1 r2.2 buf3
  else .cont buf3 p p r2.2

/-- Known-resource stage of one scan iteration, entered with the NUL
written over the `=` at index `p` still in place: locate the value's
terminating comma, write a NUL over it, duplicate name and value (a
failing `strdup` returns `PBSE_SYSTEM` with the buffer left mutated),
then restore the comma and the `=` and run the checkers. -/
def scanKnown (prdef : EclAttrDef) (alloc : Bool)
    (batch_request parent_object cmd : Int) (buf : List Char) (p : Nat)
    (name : List Char) (msg : Option (List Char)) : StepOut :=
  let ch := buf.getD p ' '
  let buf1 := buf.set p nulChar
  let qOpt := strchrFrom buf1 (p + 1) ','
  let ch1 := match qOpt with
    | some q => buf1.getD q ' '
    | none => ' '
  let buf2 := match qOpt with
    | some q => buf1.set q nulChar
    | none => buf1
  let valEnd := match qOpt with
    | some q => q
    | none => buf2.length
  let valueStr := listSlice buf2 (p + 1) valEnd
  if ¬ alloc then .ret PBSE_SYSTEM msg buf2
  else
    let buf3 := (match qOpt with
      | some q => buf2.set q ch1
      | none => buf2).set p ch
    scanVerdict
      (runCheckers prdef batch_request parent_object cmd
        { name := name, value := some valueStr } msg)
      buf3 p

/-- Name stage of one scan iteration: write a NUL over the `=` at index
`p`, read the name in front of it, and look it up; an unknown name is
assumed to be a custom resource — the `=` is restored and scanning
resumes from `nameStart` (`result = strstr(temp, chk_arr[i])`). -/
def scanFoundName (table : List EclAttrDef) (alloc : Bool)
    (batch_request parent_object cmd : Int) (buf : List Char)
    (nameStart p valIdx : Nat) (msg : Option (List Char)) : StepOut :=
  let buf1 := buf.set p nulChar
  let name := listSlice buf1 nameStart p
  match eclFindRescDef table name with
  | none => .cont (buf1.set p (buf.getD p ' ')) nameStart valIdx msg
  | some prdef =>
    scanKnown prdef alloc batch_request parent_object cmd buf p name msg

/-- One iteration of the scanning loop of
`verify_value_preempt_targets`, operating on the pass's buffer `buf`
(the original value for the `Resource_List` pass, the case-folded copy
for the `queue` pass) with the keyword occurrence at index `r`.  The
in-place NUL writes over `=` and `,` and their later restoration are
simulated with `List.set`.  `ret` is an early `return` from the C
function carrying the buffer as it is left at that point; `cont` carries
the buffer, the index scanning resumes from, the updated `val` index and
the message slot. -/
def scanStep (kw : List Char) (needDot : Bool) (table : List EclAttrDef)
    (alloc : Bool) (batch_request parent_object cmd : Int)
    (buf : List Char) (r : Nat) (valIdx : Nat)
    (msg : Option (List Char)) : StepOut :=
  let nameStart : Nat := if needDot then r + kw.length + 1 else r
  if needDot = true ∧ buf.get? (r + kw.length) ≠ some '.' then
    .ret PBSE_BADATVAL msg buf
  else
    match strchrFrom buf nameStart '=' with
    | none => .ret PBSE_BADATVAL msg buf
    | some p =>
      scanFoundName table alloc batch_request parent_object cmd
        buf nameStart p valIdx msg

/-- Result of one whole keyword pass of the preemption-target scan:
either the `while` loop finished (`done`, with the accumulated
`attrib_found` flag, the final `val` index, the message slot and the
pass buffer) or the C function returned from inside the loop (`early`). -/
inductive PassResult where
  | done : Bool → Nat → Option (List Char) → List Char → PassResult
  | early : Int → Option (List Char) → List Char → PassResult

/-- The `while (result != NULL)` loop of `verify_value_preempt_targets`
for one keyword, with an explicit fuel: the C loop does not terminate on
every input (an occurrence of `queue` whose name is not in the table is
rescanned from the same position), so `none` models divergence. -/
def preemptScan (kw : List Char) (needDot : Bool) (table : List EclAttrDef)
    (alloc : Bool) (batch_request parent_object cmd : Int) :
    Nat → List Char → Nat → Nat → Bool → Option (List Char) → Option PassResult
  | 0, _, _, _, _, _ => none
  | fuel + 1, buf, searchFrom, valIdx, found, msg =>
    match strstrFrom buf searchFrom kw with
    | none => some (.done found valIdx msg buf)
    | some r =>
      match scanStep kw needDot table alloc batch_request parent_object cmd
        buf r valIdx msg with
      | .ret c m b => some (.early c m b)
      | .cont b s' v' m =>
        preemptScan kw needDot table alloc batch_request parent_object cmd
          fuel b s' v' true m

/-- `verify_value_preempt_targets`.  Returns (error code, message slot,
final contents of the caller's value buffer); `none` models the
non-terminating runs.  The `Resource_List` pass scans the caller's
buffer itself (case-sensitively); the `queue` pass then duplicates the
tail of the value from the final `val` position onward, case-folds the
copy, and scans that (so its NUL writes never touch the caller's
buffer). -/
def verify_value_preempt_targets (rescTable resvTable : List EclAttrDef)
    (alloc : Bool) (batch_request parent_object cmd : Int) (fuel : Nat)
    (value : Option (List Char)) (err_msg : Option (List Char)) :
    Option (Int × Option (List Char) × Option (List Char)) :=
  match value with
  | none => some (PBSE_BADATVAL, err_msg, none)
  | some buf =>
    if buf = [] then some (PBSE_BADATVAL, err_msg, some buf)
    else
      let val := buf.dropWhile isspaceC
      if lowerList (val.take TARGET_NONE.length) = lowerList TARGET_NONE then
        some ((if lowerList val = lowerList TARGET_NONE then PBSE_NONE else PBSE_BADATVAL),
          err_msg, some buf)
      else
        match preemptScan ATTR_l true rescTable alloc batch_request parent_object cmd
          fuel buf 0 0 false err_msg with
        | none => none
        | some (.early c m b) => some (c, m, some b)
        | some (.done found valIdx m b) =>
          if ¬ alloc then some (PBSE_SYSTEM, m, some b)
          else
            let lcase := lowerList (b.drop valIdx)
            match preemptScan ATTR_queue false resvTable alloc batch_request
              parent_object cmd fuel lcase 0 0 found m with
            | none => none
            | some (.early c m1 _) => some (c, m1, some b)
            | some (.done found1 _ m1 _) =>
              some ((if found1 then PBSE_NONE else PBSE_BADATVAL), m1, some b)

theorem list_set_get_self {l : List Char} {i : Nat} {a : Char}
    (h : l.get? i = some a) : l.set i a = l := by
  rw [List.get?_eq_getElem?] at h
  induction l generalizing i with
  | nil => simp at h
  | cons x t ih =>
    cases i with
    | zero => simp at h; simp [h]
    | succ j => simp at h; simp [List.set, ih h]

theorem list_getD_of_get {l : List Char} {i : Nat} {a : Char} (d : Char)
    (h : l.get? i = some a) : l.getD i d = a := by
  rw [List.get?_eq_getElem?] at h
  rw [List.getD_eq_getElem?_getD, h]
  rfl

theorem chrIdx_get {c : Char} {l : List Char} {i : Nat}
    (h : chrIdx c l = some i) : l.get? i = some c := by
  induction l generalizing i with
  | nil => simp [chrIdx] at h
  | cons x t ih =>
    by_cases hx : x = c
    · simp [chrIdx, hx] at h
      subst h
      simp [hx]
    · simp [chrIdx, hx] at h
      obtain ⟨j, hj, rfl⟩ := h
      simpa using ih hj

theorem strchrFrom_get {buf : List Char} {s : Nat} {c : Char} {p : Nat}
    (h : strchrFrom buf s c = some p) : buf.get? p = some c := by
  simp only [strchrFrom, Option.map_eq_some'] at h
  obtain ⟨j, hj, rfl⟩ := h
  have := chrIdx_get hj
  rwa [List.get?_drop, Nat.add_comm] at this

theorem findSub_isSome_iff {l pat : List Char} :
    (findSub l pat).isSome = true ↔ ∃ n, pat <+: l.drop n := by
  induction l with
  | nil =>
    rw [findSub]
    by_cases hp : pat.isPrefixOf ([] : List Char)
    · rw [if_pos hp]
      constructor
      · intro _
        exact ⟨0, by simpa [ List.isPrefixOf_iff_prefix] using hp⟩
      · intro _
        rfl
    · simp [hp, List.drop_nil]
      simpa [ List.isPrefixOf_iff_prefix] using hp
  | cons x t ih =>
    rw [findSub]
    by_cases hp : pat.isPrefixOf (x :: t)
    · simp [hp]
      exact ⟨0, by simpa [ List.isPrefixOf_iff_prefix] using hp⟩
    · simp [hp]
      rw [ih]
      constructor
      · rintro ⟨n, hn⟩
        exact ⟨n + 1, by simpa using hn⟩
      · rintro ⟨n, hn⟩
        cases n with
        | zero =>
          simp at hn
          exact absurd ( List.isPrefixOf_iff_prefix.mpr hn) hp
        | succ m => exact ⟨m, by simpa using hn⟩

theorem findSub_drop_isSome {l pat : List Char} {v : Nat}
    (h : (findSub (l.drop v) pat).isSome = true) :
    (findSub l pat).isSome = true := by
  rw [findSub_isSome_iff] at h ⊢
  obtain ⟨n, hn⟩ := h
  exact ⟨v + n, by rwa [List.drop_drop] at hn⟩

theorem scanVerdict_ret_ne_zero {r2 : Int × Option (List Char)}
    {buf3 : List Char} {p : Nat} {c : Int} {m : Option (List Char)} {b : List Char}
    (h : scanVerdict r2 buf3 p = .ret c m b) : c ≠ 0 := by
  rw [scanVerdict] at h
  split at h
  next hne =>
    split at h
    · split at h
      · cases h
        exact hne
      · cases h
        exact hne
    · cases h
      exact hne
  next => cases h

theorem scanVerdict_ret_buf {r2 : Int × Option (List Char)}
    {buf3 : List Char} {p : Nat} {c : Int} {m : Option (List Char)} {b : List Char}
    (h : scanVerdict r2 buf3 p = .ret c m b) : b = buf3 := by
  rw [scanVerdict] at h
  split at h
  · split at h
    · split at h
      · cases h
        rfl
      · cases h
        rfl
    · cases h
      rfl
  · cases h

theorem scanVerdict_cont_buf {r2 : Int × Option (List Char)}
    {buf3 : List Char} {p : Nat} {b : List Char} {s' v' : Nat} {m : Option (List Char)}
    (h : scanVerdict r2 buf3 p = .cont b s' v' m) : b = buf3 := by
  rw [scanVerdict] at h
  split at h
  · split at h
    · split at h
      · cases h
      · cases h
    · cases h
  · cases h
    rfl

theorem restore_nocomma {buf : List Char} {p : Nat}
    (hp : buf.get? p = some '=') :
    (buf.set p nulChar).set p (buf.getD p ' ') = buf := by
  rw [List.set_set, list_getD_of_get ' ' hp, list_set_get_self hp]

theorem restore_comma {buf : List Char} {p q : Nat}
    (hp : buf.get? p = some '=')
    (hq : strchrFrom (buf.set p nulChar) (p + 1) ',' = some q) :
    (((buf.set p nulChar).set q nulChar).set q
      ((buf.set p nulChar).getD q ' ')).set p (buf.getD p ' ') = buf := by
  have hcomma : (buf.set p nulChar).get? q = some ',' := strchrFrom_get hq
  rw [List.set_set, list_getD_of_get ' ' hcomma, list_set_get_self hcomma]
  rw [List.set_set, list_getD_of_get ' ' hp, list_set_get_self hp]

/-- The buffer a scan-iteration outcome carries. -/
def stepBuf : StepOut → List Char
  | .ret _ _ b => b
  | .cont b _ _ _ => b

theorem scanKnown_ret_ne_zero {prdef : EclAttrDef} {alloc : Bool}
    {br po cmd : Int} {buf : List Char} {p : Nat} {name : List Char}
    {msg : Option (List Char)} {c : Int} {m : Option (List Char)} {b : List Char}
    (h : scanKnown prdef alloc br po cmd buf p name msg = .ret c m b) :
    c ≠ 0 := by
  simp only [scanKnown] at h
  split at h
  · cases h
    decide
  · exact scanVerdict_ret_ne_zero h

theorem scanKnown_true_buf {prdef : EclAttrDef} {br po cmd : Int}
    {buf : List Char} {p : Nat} {name : List Char} {msg : Option (List Char)}
    (hp : buf.get? p = some '=') :
    stepBuf (scanKnown prdef true br po cmd buf p name msg) = buf := by
  simp only [scanKnown]
  split
  next halloc => simp at halloc
  next =>
    cases hq : strchrFrom (buf.set p nulChar) (p + 1) ',' with
    | none =>
      simp only [hq]
      cases hv : scanVerdict
        (runCheckers prdef br po cmd
          { name := name,
            value := some (listSlice (buf.set p nulChar) (p + 1) (buf.set p nulChar).length) }
          msg)
        ((buf.set p nulChar).set p (buf.getD p ' ')) p with
      | ret c m b =>
        have := scanVerdict_ret_buf hv
        have hg : buf[p]? = some '=' := by rw [← List.get?_eq_getElem?]; exact hp
        simp [stepBuf, this, hg, list_set_get_self hp]
      | cont b s v m =>
        have := scanVerdict_cont_buf hv
        have hg : buf[p]? = some '=' := by rw [← List.get?_eq_getElem?]; exact hp
        simp [stepBuf, this, hg, list_set_get_self hp]
    | some q =>
      simp only [hq]
      cases hv : scanVerdict
        (runCheckers prdef br po cmd
          { name := name,
            value := some (listSlice ((buf.set p nulChar).set q nulChar) (p + 1) q) }
          msg)
        ((((buf.set p nulChar).set q nulChar).set q
          ((buf.set p nulChar).getD q ' ')).set p (buf.getD p ' ')) p with
      | ret c m b =>
        have := scanVerdict_ret_buf hv
        have hcomma : (buf.set p nulChar).get? q = some ',' := strchrFrom_get hq
        have hg : buf[p]? = some '=' := by rw [← List.get?_eq_getElem?]; exact hp
        have hgq : (buf.set p nulChar)[q]? = some ',' := by
          rw [← List.get?_eq_getElem?]; exact hcomma
        simp [stepBuf, this, hg, hgq, List.set_set, list_set_get_self hcomma,
          list_set_get_self hp]
      | cont b s v m =>
        have := scanVerdict_cont_buf hv
        have hcomma : (buf.set p nulChar).get? q = some ',' := strchrFrom_get hq
        have hg : buf[p]? = some '=' := by rw [← List.get?_eq_getElem?]; exact hp
        have hgq : (buf.set p nulChar)[q]? = some ',' := by
          rw [← List.get?_eq_getElem?]; exact hcomma
        simp [stepBuf, this, hg, hgq, List.set_set, list_set_get_self hcomma,
          list_set_get_self hp]

theorem scanFoundName_ret_ne_zero {table : List EclAttrDef} {alloc : Bool}
    {br po cmd : Int} {buf : List Char} {nameStart p valIdx : Nat}
    {msg : Option (List Char)} {c : Int} {m : Option (List Char)} {b : List Char}
    (h : scanFoundName table alloc br po cmd buf nameStart p valIdx msg = .ret c m b) :
    c ≠ 0 := by
  simp only [scanFoundName] at h
  split at h
  · cases h
  · exact scanKnown_ret_ne_zero h

theorem scanFoundName_true_buf {table : List EclAttrDef} {br po cmd : Int}
    {buf : List Char} {nameStart p valIdx : Nat} {msg : Option (List Char)}
    (hp : buf.get? p = some '=') :
    stepBuf (scanFoundName table true br po cmd buf nameStart p valIdx msg) = buf := by
  simp only [scanFoundName]
  split
  · have hg : buf[p]? = some '=' := by rw [← List.get?_eq_getElem?]; exact hp
    simp [stepBuf, hg, List.set_set, list_set_get_self hp]
  · exact scanKnown_true_buf hp

theorem scanStep_ret_ne_zero {kw : List Char} {needDot : Bool}
    {table : List EclAttrDef} {alloc : Bool} {br po cmd : Int}
    {buf : List Char} {r valIdx : Nat} {msg : Option (List Char)}
    {c : Int} {m : Option (List Char)} {b : List Char}
    (h : scanStep kw needDot table alloc br po cmd buf r valIdx msg = .ret c m b) :
    c ≠ 0 := by
  simp only [scanStep] at h
  split at h
  · cases h
    decide
  · split at h
    · cases h
      decide
    · exact scanFoundName_ret_ne_zero h

theorem scanStep_true_buf {kw : List Char} {needDot : Bool}
    {table : List EclAttrDef} {br po cmd : Int} {buf : List Char}
    {r valIdx : Nat} {msg : Option (List Char)} :
    stepBuf (scanStep kw needDot table true br po cmd buf r valIdx msg) = buf := by
  simp only [scanStep]
  split
  · rfl
  · split
    · rfl
    next p hp => exact scanFoundName_true_buf (strchrFrom_get hp)

/-- The buffer a pass outcome carries. -/
def passBuf : PassResult → List Char
  | .done _ _ _ b => b
  | .early _ _ b => b

theorem preemptScan_early_ne_zero {kw : List Char} {needDot : Bool}
    {table : List EclAttrDef} {alloc : Bool} {br po cmd : Int} :
    ∀ {fuel : Nat} {buf : List Char} {s v : Nat} {f : Bool}
      {msg : Option (List Char)} {c : Int} {m : Option (List Char)} {b : List Char},
    preemptScan kw needDot table alloc br po cmd fuel buf s v f msg =
      some (.early c m b) → c ≠ 0 := by
  intro fuel
  induction fuel with
  | zero => intro buf s v f msg c m b h; cases h
  | succ n ih =>
    intro buf s v f msg c m b h
    rw [preemptScan] at h
    split at h
    · cases h
    · split at h
      next hstep =>
        cases h
        exact scanStep_ret_ne_zero hstep
      next => exact ih h

theorem preemptScan_true_buf {kw : List Char} {needDot : Bool}
    {table : List EclAttrDef} {br po cmd : Int} :
    ∀ {fuel : Nat} {buf : List Char} {s v : Nat} {f : Bool}
      {msg : Option (List Char)} {res : PassResult},
    preemptScan kw needDot table true br po cmd fuel buf s v f msg = some res →
    passBuf res = buf := by
  intro fuel
  induction fuel with
  | zero => intro buf s v f msg res h; cases h
  | succ n ih =>
    intro buf s v f msg res h
    rw [preemptScan] at h
    split at h
    · cases h
      rfl
    next r hr =>
      split at h
      next c0 m0 b0 hstep =>
        cases h
        have hb : stepBuf (scanStep kw needDot table true br po cmd buf r v msg) = buf :=
          scanStep_true_buf
        rw [hstep] at hb
        simpa [passBuf, stepBuf] using hb
      next b0 s0 v0 m0 hstep =>
        have hb : stepBuf (scanStep kw needDot table true br po cmd buf r v msg) = buf :=
          scanStep_true_buf
        rw [hstep] at hb
        rw [ih h]
        simpa [stepBuf] using hb

theorem preemptScan_done_found {kw : List Char} {needDot : Bool}
    {table : List EclAttrDef} {alloc : Bool} {br po cmd : Int}
    {fuel : Nat} {buf : List Char} {s v : Nat} {f : Bool}
    {msg : Option (List Char)} {v' : Nat} {m : Option (List Char)} {b : List Char}
    (h : preemptScan kw needDot table alloc br po cmd fuel buf s v f msg =
      some (.done true v' m b)) :
    f = true ∨ (strstrFrom buf s kw).isSome = true := by
  cases fuel with
  | zero => cases h
  | succ n =>
    rw [preemptScan] at h
    split at h
    · cases h
      left
      rfl
    next r hr =>
      right
      rw [hr]
      rfl

theorem holdLoop_eq_none_iff :
    ∀ (t : List Char) (u o s p n : Nat),
    holdLoop t u o s p n = PBSE_NONE ↔
      ((∀ c ∈ t, c = 'u' ∨ c = 'o' ∨ c = 's' ∨ c = 'p' ∨ c = 'n') ∧
       (n + t.count 'n' = 0 ∨
         u + t.count 'u' + (o + t.count 'o') + (s + t.count 's') + (p + t.count 'p') = 0) ∧
       (p + t.count 'p' = 0 ∨
         u + t.count 'u' + (o + t.count 'o') + (s + t.count 's') + (n + t.count 'n') = 0)) := by
  intro t
  induction t with
  | nil =>
    intro u o s p n
    simp only [holdLoop, List.count_nil, Nat.add_zero, List.not_mem_nil,
      false_implies, implies_true, true_and]
    split_ifs with h1 h2
    · constructor
      · intro h
        exact absurd h (by decide)
      · intro hr
        exfalso
        omega
    · constructor
      · intro h
        exact absurd h (by decide)
      · intro hr
        exfalso
        omega
    · constructor
      · intro _
        omega
      · intro _
        rfl
  | cons c t ih =>
    intro u o s p n
    by_cases hu : c = 'u'
    · subst hu
      rw [holdLoop, if_pos rfl, ih, List.forall_mem_cons]
      rw [List.count_cons_self,
        List.count_cons_of_ne (by decide : ('o' : Char) ≠ 'u'),
        List.count_cons_of_ne (by decide : ('s' : Char) ≠ 'u'),
        List.count_cons_of_ne (by decide : ('p' : Char) ≠ 'u'),
        List.count_cons_of_ne (by decide : ('n' : Char) ≠ 'u'),
        and_iff_right (Or.inl rfl)]
      refine and_congr Iff.rfl ?_
      constructor
      · rintro ⟨h2, h3⟩
        exact ⟨by omega, by omega⟩
      · rintro ⟨h2, h3⟩
        exact ⟨by omega, by omega⟩
    · by_cases ho : c = 'o'
      · subst ho
        rw [holdLoop, if_neg (by decide), if_pos rfl, ih, List.forall_mem_cons]
        rw [List.count_cons_self,
          List.count_cons_of_ne (by decide : ('u' : Char) ≠ 'o'),
          List.count_cons_of_ne (by decide : ('s' : Char) ≠ 'o'),
          List.count_cons_of_ne (by decide : ('p' : Char) ≠ 'o'),
          List.count_cons_of_ne (by decide : ('n' : Char) ≠ 'o'),
          and_iff_right (Or.inr (Or.inl rfl))]
        refine and_congr Iff.rfl ?_
        constructor
        · rintro ⟨h2, h3⟩
          exact ⟨by omega, by omega⟩
        · rintro ⟨h2, h3⟩
          exact ⟨by omega, by omega⟩
      · by_cases hs : c = 's'
        · subst hs
          rw [holdLoop, if_neg (by decide), if_neg (by decide), if_pos rfl, ih,
            List.forall_mem_cons]
          rw [List.count_cons_self,
            List.count_cons_of_ne (by decide : ('u' : Char) ≠ 's'),
            List.count_cons_of_ne (by decide : ('o' : Char) ≠ 's'),
            List.count_cons_of_ne (by decide : ('p' : Char) ≠ 's'),
            List.count_cons_of_ne (by decide : ('n' : Char) ≠ 's'),
            and_iff_right (Or.inr (Or.inr (Or.inl rfl)))]
          refine and_congr Iff.rfl ?_
          constructor
          · rintro ⟨h2, h3⟩
            exact ⟨by omega, by omega⟩
          · rintro ⟨h2, h3⟩
            exact ⟨by omega, by omega⟩
        · by_cases hp : c = 'p'
          · subst hp
            rw [holdLoop, if_neg (by decide), if_neg (by decide), if_neg (by decide),
              if_pos rfl, ih, List.forall_mem_cons]
            rw [List.count_cons_self,
              List.count_cons_of_ne (by decide : ('u' : Char) ≠ 'p'),
              List.count_cons_of_ne (by decide : ('o' : Char) ≠ 'p'),
              List.count_cons_of_ne (by decide : ('s' : Char) ≠ 'p'),
              List.count_cons_of_ne (by decide : ('n' : Char) ≠ 'p'),
              and_iff_right (Or.inr (Or.inr (Or.inr (Or.inl rfl))))]
            refine and_congr Iff.rfl ?_
            constructor
            · rintro ⟨h2, h3⟩
              exact ⟨by omega, by omega⟩
            · rintro ⟨h2, h3⟩
              exact ⟨by omega, by omega⟩
          · by_cases hn : c = 'n'
            · subst hn
              rw [holdLoop, if_neg (by decide), if_neg (by decide), if_neg (by decide),
                if_neg (by decide), if_pos rfl, ih, List.forall_mem_cons]
              rw [List.count_cons_self,
                List.count_cons_of_ne (by decide : ('u' : Char) ≠ 'n'),
                List.count_cons_of_ne (by decide : ('o' : Char) ≠ 'n'),
                List.count_cons_of_ne (by decide : ('s' : Char) ≠ 'n'),
                List.count_cons_of_ne (by decide : ('p' : Char) ≠ 'n'),
                and_iff_right (Or.inr (Or.inr (Or.inr (Or.inr rfl))))]
              refine and_congr Iff.rfl ?_
              constructor
              · rintro ⟨h2, h3⟩
                exact ⟨by omega, by omega⟩
              · rintro ⟨h2, h3⟩
                exact ⟨by omega, by omega⟩
            · rw [holdLoop, if_neg hu, if_neg ho, if_neg hs, if_neg hp, if_neg hn]
              constructor
              · intro h
                exact absurd h (by decide)
              · rintro ⟨h1, -, -⟩
                have := h1 c (List.mem_cons_self c t)
                simp [hu, ho, hs, hp, hn] at this

theorem atoiDigits_head_not_digit {l : List Char}
    (h : ∀ c, l.head? = some c → c.isDigit = false) : atoiDigits l 0 = 0 := by
  cases l with
  | nil => rfl
  | cons c t => simp [atoiDigits, h c rfl]

theorem atoiChars_of_nonnumeric {v : List Char}
    (h : ∀ c, (stripSign (v.dropWhile isspaceC)).head? = some c → c.isDigit = false) :
    atoiChars v = 0 := by
  rw [atoiChars]
  rw [atoiDigits_head_not_digit h]
  cases hn : isNegSign (v.dropWhile isspaceC) <;> simp [hn]

/-- C4 (counterexample): the claim (and the spec's test vector) says
`verify_hold("up")` is Accepted, but the code rejects it: `p` counts as
mutually exclusive with `u`, so `"up"` yields `PBSE_BADATVAL`. -/
theorem hold_up_rejected :
    verify_value_hold PBS_BATCH_QueueJob 0 0 (some ['u', 'p']) = PBSE_BADATVAL ∧
    PBSE_BADATVAL ≠ PBSE_NONE :=
  ⟨by decide, by decide⟩

/-- C4 (amended): a non-empty hold value is accepted exactly when every
character is one of `u o s p n`, `n` occurs only alone, and `p` occurs
only alone; in particular `"n"` and `"us"` are Accepted while `"no"`,
`"up"` and `"pn"` are Rejected. -/
theorem hold_characterization_amended :
    (∀ (br po cmd : Int) (v : List Char), v ≠ [] →
      (verify_value_hold br po cmd (some v) = PBSE_NONE ↔
        ((∀ c ∈ v, c = 'u' ∨ c = 'o' ∨ c = 's' ∨ c = 'p' ∨ c = 'n') ∧
         (v.count 'n' = 0 ∨ v.count 'u' + v.count 'o' + v.count 's' + v.count 'p' = 0) ∧
         (v.count 'p' = 0 ∨ v.count 'u' + v.count 'o' + v.count 's' + v.count 'n' = 0)))) ∧
    (∀ br po cmd : Int,
      verify_value_hold br po cmd (some ['n']) = PBSE_NONE ∧
      verify_value_hold br po cmd (some ['n', 'o']) = PBSE_BADATVAL ∧
      verify_value_hold br po cmd (some ['u', 'p']) = PBSE_BADATVAL ∧
      verify_value_hold br po cmd (some ['p', 'n']) = PBSE_BADATVAL) := by
  constructor
  · intro br po cmd v hv
    simp only [verify_value_hold]
    rw [if_neg hv]
    have := holdLoop_eq_none_iff v 0 0 0 0 0
    simpa using this
  · intro br po cmd
    exact ⟨rfl, rfl, rfl, rfl⟩

theorem hold_characterization_amended_witness :
    verify_value_hold 1 2 3 (some ['u', 's']) = PBSE_NONE :=
  (hold_characterization_amended.1 1 2 3 ['u', 's'] (by decide)).mpr (by decide)

/-- C8: priority parses via `atoi`; a value in [-1024, 1023] is accepted
for every request kind, an out-of-range value is accepted only for a
select request; `"-1024"` is accepted everywhere and `"1024"` is
rejected for a submit request but accepted for a select request. -/
theorem priority_range_policy :
    (∀ (br po cmd : Int) (v : List Char), v ≠ [] →
      verify_value_priority br po cmd (some v) =
        (if -1024 ≤ atoiChars v ∧ atoiChars v ≤ 1023 then PBSE_NONE
         else if br = PBS_BATCH_SelectJobs then PBSE_NONE else PBSE_BADATVAL)) ∧
    (∀ br po cmd : Int,
      verify_value_priority br po cmd (some "-1024".toList) = PBSE_NONE) ∧
    (∀ po cmd : Int,
      verify_value_priority PBS_BATCH_QueueJob po cmd (some "1024".toList) = PBSE_BADATVAL ∧
      verify_value_priority PBS_BATCH_SelectJobs po cmd (some "1024".toList) = PBSE_NONE) := by
  refine ⟨?_, ?_, ?_⟩
  · intro br po cmd v hv
    simp only [verify_value_priority]
    rw [if_neg hv]
    by_cases hr : atoiChars v < -1024 ∨ atoiChars v > 1023
    · rw [if_pos hr]
      rw [if_neg (show ¬(-1024 ≤ atoiChars v ∧ atoiChars v ≤ 1023) by omega)]
    · rw [if_neg hr]
      rw [if_pos (show -1024 ≤ atoiChars v ∧ atoiChars v ≤ 1023 by omega)]
  · intro br po cmd
    rfl
  · intro po cmd
    exact ⟨rfl, rfl⟩

theorem priority_range_policy_witness :
    verify_value_priority 0 0 0 (some ['7']) =
      (if -1024 ≤ atoiChars ['7'] ∧ atoiChars ['7'] ≤ 1023 then PBSE_NONE
       else if (0 : Int) = PBS_BATCH_SelectJobs then PBSE_NONE else PBSE_BADATVAL) :=
  priority_range_policy.1 0 0 0 ['7'] (by decide)

/-- C10: a non-empty value with no leading digits (after white space and
an optional sign) parses as 0 under `atoi`/`atol` and therefore passes
the priority, zero-or-positive and license-bound checks for every
request kind. -/
theorem atoi_nonnumeric_accepted :
    ∀ (v : List Char) (br po cmd : Int), v ≠ [] →
    (∀ c, (stripSign (v.dropWhile isspaceC)).head? = some c → c.isDigit = false) →
    atoiChars v = 0 ∧
    verify_value_priority br po cmd (some v) = PBSE_NONE ∧
    verify_value_zero_or_positive br po cmd (some v) = PBSE_NONE ∧
    verify_value_minlicenses br po cmd (some v) = PBSE_NONE ∧
    verify_value_maxlicenses br po cmd (some v) = PBSE_NONE := by
  intro v br po cmd hv hnd
  have h0 : atoiChars v = 0 := atoiChars_of_nonnumeric hnd
  refine ⟨h0, ?_, ?_, ?_, ?_⟩
  · simp only [verify_value_priority]
    rw [if_neg hv, h0]
    rw [if_neg (by decide)]
  · simp only [verify_value_zero_or_positive]
    rw [if_neg hv, h0]
    rw [if_neg (by decide)]
  · simp only [verify_value_minlicenses]
    rw [if_neg hv, h0]
    rw [if_neg (by decide)]
  · simp only [verify_value_maxlicenses]
    rw [if_neg hv, h0]
    rw [if_neg (by decide)]

theorem atoi_nonnumeric_accepted_witness :
    atoiChars "abc".toList = 0 ∧
    verify_value_priority 1 2 3 (some "abc".toList) = PBSE_NONE ∧
    verify_value_zero_or_positive 1 2 3 (some "abc".toList) = PBSE_NONE ∧
    verify_value_minlicenses 1 2 3 (some "abc".toList) = PBSE_NONE ∧
    verify_value_maxlicenses 1 2 3 (some "abc".toList) = PBSE_NONE :=
  atoi_nonnumeric_accepted "abc".toList 1 2 3 (by decide) (by decide)

/-- C9: for every request kind an empty or missing value is rejected by
every scalar verifier, except that the job/reservation-name verifier
accepts the empty (not missing) value under status and select requests,
and the job-state verifier accepts the empty (not missing) value only
under a status request. -/
theorem empty_value_policy :
    (∀ (f : List Char → Bool → Bool → Bool) (br po cmd : Int),
      verify_value_user_list f br po cmd none = PBSE_BADATVAL ∧
      verify_value_user_list f br po cmd (some []) = PBSE_BADATVAL) ∧
    (∀ (f : List Char → Bool → Bool → Bool) (br po cmd : Int),
      verify_value_authorized_users f br po cmd none = PBSE_BADATVAL ∧
      verify_value_authorized_users f br po cmd (some []) = PBSE_BADATVAL) ∧
    (∀ (f : List Char → Option (List Char)) (alloc : Bool) (br po cmd : Int),
      verify_value_dependlist f alloc br po cmd none = (PBSE_BADATVAL, none) ∧
      verify_value_dependlist f alloc br po cmd (some []) = (PBSE_BADATVAL, some [])) ∧
    (∀ (f : List Char → Option (List Char)) (br po cmd : Int),
      verify_value_path f true br po cmd none = (PBSE_BADATVAL, none) ∧
      verify_value_path f true br po cmd (some []) = (PBSE_BADATVAL, some [])) ∧
    (∀ (f : List Char → Int) (br po cmd : Int),
      verify_value_jrange f br po cmd none = PBSE_BADATVAL ∧
      verify_value_jrange f br po cmd (some []) = PBSE_BADATVAL) ∧
    (∀ (f : List Char → Bool → Int) (br po cmd : Int),
      verify_value_jobname f br po cmd none = PBSE_BADATVAL ∧
      verify_value_jobname f br po cmd (some []) =
        (if br = PBS_BATCH_StatusJob ∨ br = PBS_BATCH_SelectJobs
         then PBSE_NONE else PBSE_BADATVAL)) ∧
    (∀ (br po cmd op : Int),
      verify_value_checkpoint br po cmd op none = PBSE_BADATVAL ∧
      verify_value_checkpoint br po cmd op (some []) = PBSE_BADATVAL) ∧
    (∀ (br po cmd : Int),
      verify_value_hold br po cmd none = PBSE_BADATVAL ∧
      verify_value_hold br po cmd (some []) = PBSE_BADATVAL) ∧
    (∀ (br po cmd : Int),
      verify_value_joinpath br po cmd none = PBSE_BADATVAL ∧
      verify_value_joinpath br po cmd (some []) = PBSE_BADATVAL) ∧
    (∀ (br po cmd : Int),
      verify_value_keepfiles br po cmd none = PBSE_BADATVAL ∧
      verify_value_keepfiles br po cmd (some []) = PBSE_BADATVAL) ∧
    (∀ (br po cmd : Int),
      verify_value_mailpoints br po cmd none = PBSE_BADATVAL ∧
      verify_value_mailpoints br po cmd (some []) = PBSE_BADATVAL) ∧
    (∀ (f : List Char → Bool → Bool → Bool) (br po cmd : Int),
      verify_value_mailusers f br po cmd none = PBSE_BADATVAL ∧
      verify_value_mailusers f br po cmd (some []) = PBSE_BADATVAL) ∧
    (∀ (f : List Char → Bool → Bool → Bool) (br po cmd : Int),
      verify_value_shellpathlist f br po cmd none = PBSE_BADATVAL ∧
      verify_value_shellpathlist f br po cmd (some []) = PBSE_BADATVAL) ∧
    (∀ (br po cmd : Int),
      verify_value_priority br po cmd none = PBSE_BADATVAL ∧
      verify_value_priority br po cmd (some []) = PBSE_BADATVAL) ∧
    (∀ (br po cmd : Int),
      verify_value_sandbox br po cmd none = PBSE_BADATVAL ∧
      verify_value_sandbox br po cmd (some []) = PBSE_BADATVAL) ∧
    (∀ (f : List Char → Bool) (br po cmd : Int),
      verify_value_stagelist f br po cmd none = PBSE_BADATVAL ∧
      verify_value_stagelist f br po cmd (some []) = PBSE_BADATVAL) ∧
    (∀ (cl : List (List Char)) (br po cmd : Int),
      verify_value_credname cl br po cmd none = PBSE_BADATVAL ∧
      verify_value_credname cl br po cmd (some []) = PBSE_BADATVAL) ∧
    (∀ (br po cmd : Int),
      verify_value_zero_or_positive br po cmd none = PBSE_BADATVAL ∧
      verify_value_zero_or_positive br po cmd (some []) = PBSE_BADATVAL) ∧
    (∀ (br po cmd : Int),
      verify_value_non_zero_positive br po cmd none = PBSE_BADATVAL ∧
      verify_value_non_zero_positive br po cmd (some []) = PBSE_BADATVAL) ∧
    (∀ (br po cmd : Int),
      verify_value_minlicenses br po cmd none = PBSE_BADATVAL ∧
      verify_value_minlicenses br po cmd (some []) = PBSE_BADATVAL) ∧
    (∀ (br po cmd : Int),
      verify_value_maxlicenses br po cmd none = PBSE_BADATVAL ∧
      verify_value_maxlicenses br po cmd (some []) = PBSE_BADATVAL) ∧
    (∀ (br po cmd : Int),
      verify_value_licenselinger br po cmd none = PBSE_BADATVAL ∧
      verify_value_licenselinger br po cmd (some []) = PBSE_BADATVAL) ∧
    (∀ (br po cmd : Int),
      verify_value_queue_type br po cmd none = PBSE_BADATVAL ∧
      verify_value_queue_type br po cmd (some []) = PBSE_BADATVAL) ∧
    (∀ (br po cmd : Int),
      verify_value_state br po cmd none = PBSE_BADATVAL ∧
      verify_value_state br po cmd (some []) =
        (if br = PBS_BATCH_StatusJob then PBSE_NONE else PBSE_BADATVAL)) := by
  refine ⟨?_, ?_, ?_, ?_, ?_, ?_, ?_, ?_, ?_, ?_, ?_, ?_, ?_, ?_, ?_, ?_, ?_, ?_,
    ?_, ?_, ?_, ?_, ?_, ?_⟩
  · intro f br po cmd
    exact ⟨rfl, by simp [verify_value_user_list]⟩
  · intro f br po cmd
    exact ⟨rfl, by simp [verify_value_authorized_users]⟩
  · intro f alloc br po cmd
    exact ⟨rfl, by simp [verify_value_dependlist]⟩
  · intro f br po cmd
    exact ⟨by simp [verify_value_path], by simp [verify_value_path]⟩
  · intro f br po cmd
    exact ⟨rfl, by simp [verify_value_jrange]⟩
  · intro f br po cmd
    exact ⟨rfl, by simp [verify_value_jobname]⟩
  · intro br po cmd op
    exact ⟨rfl, by simp [verify_value_checkpoint]⟩
  · intro br po cmd
    exact ⟨rfl, by simp [verify_value_hold]⟩
  · intro br po cmd
    exact ⟨rfl, by simp [verify_value_joinpath]⟩
  · intro br po cmd
    exact ⟨rfl, by simp [verify_value_keepfiles]⟩
  · intro br po cmd
    exact ⟨rfl, by simp [verify_value_mailpoints]⟩
  · intro f br po cmd
    exact ⟨rfl, by simp [verify_value_mailusers]⟩
  · intro f br po cmd
    exact ⟨rfl, by simp [verify_value_shellpathlist]⟩
  · intro br po cmd
    exact ⟨rfl, by simp [verify_value_priority]⟩
  · intro br po cmd
    exact ⟨rfl, by simp [verify_value_sandbox]⟩
  · intro f br po cmd
    exact ⟨rfl, by simp [verify_value_stagelist]⟩
  · intro cl br po cmd
    exact ⟨rfl, by simp [verify_value_credname]⟩
  · intro br po cmd
    exact ⟨rfl, by simp [verify_value_zero_or_positive]⟩
  · intro br po cmd
    exact ⟨rfl, by simp [verify_value_non_zero_positive]⟩
  · intro br po cmd
    exact ⟨rfl, by simp [verify_value_minlicenses]⟩
  · intro br po cmd
    exact ⟨rfl, by simp [verify_value_maxlicenses]⟩
  · intro br po cmd
    exact ⟨rfl, by simp [verify_value_licenselinger]⟩
  · intro br po cmd
    exact ⟨rfl, by simp [verify_value_queue_type]⟩
  · intro br po cmd
    refine ⟨rfl, ?_⟩
    simp only [verify_value_state, stateChars, if_true]
    by_cases hbr : br = PBS_BATCH_StatusJob
    · rw [if_neg (not_not_intro hbr), if_pos hbr]
    · rw [if_pos hbr, if_neg hbr]

/-- C5: a resource name absent from the definition table is accepted by
`verify_value_resc` with no message set, and the preemption-target
scanner treats an unknown name as an opaque custom resource: it restores
the `=`, keeps the buffer intact and continues scanning from just past
the keyword instead of rejecting. -/
theorem unknown_resource_accepted :
    (∀ (table : List EclAttrDef) (alloc : Bool) (br po cmd : Int)
       (pattr : Attropl) (m : Option (List Char)) (res : List Char),
      pattr.resource = some res →
      eclFindRescDef table res = none →
      verify_value_resc table alloc br po cmd pattr m = (PBSE_NONE, m)) ∧
    (∀ (table : List EclAttrDef) (alloc : Bool) (br po cmd : Int)
       (buf : List Char) (nameStart p valIdx : Nat) (m : Option (List Char)),
      buf.get? p = some '=' →
      eclFindRescDef table (listSlice (buf.set p nulChar) nameStart p) = none →
      scanFoundName table alloc br po cmd buf nameStart p valIdx m =
        .cont buf nameStart valIdx m) := by
  constructor
  · intro table alloc br po cmd pattr m res hres hfind
    simp only [verify_value_resc, hres, hfind]
  · intro table alloc br po cmd buf nameStart p valIdx m hp hfind
    simp only [scanFoundName, hfind]
    rw [restore_nocomma hp]

theorem unknown_resource_accepted_witness :
    verify_value_resc [] true 1 2 3
      { name := "Resource_List".toList, resource := some "foo".toList,
        value := some "1".toList } none = (PBSE_NONE, none) :=
  unknown_resource_accepted.1 [] true 1 2 3
    { name := "Resource_List".toList, resource := some "foo".toList,
      value := some "1".toList } none "foo".toList rfl rfl

/-- C6 (counterexample): the claim says an allocation failure is
reported as a negative code in every verifier, but `verify_value_path`
returns `PBSE_SYSTEM = 15010`, a positive code, when its `malloc`
fails. -/
theorem path_alloc_failure_positive_code :
    verify_value_path (fun v => some v) false 1 2 3 (some ['x']) =
      (PBSE_SYSTEM, some ['x']) ∧
    ¬ PBSE_SYSTEM < 0 ∧ 0 < PBSE_SYSTEM :=
  ⟨rfl, by decide, by decide⟩

/-- C6 (amended): an allocation failure is always fatal and
distinguishable from the validation-rejection codes, but it is not
uniformly negative: `verify_value_path` and the preemption-target
scanner report the positive code `PBSE_SYSTEM`, while
`verify_value_dependlist`, the ACL check
`verify_value_mgr_opr_acl_check` and `verify_value_resc` report -1. -/
theorem alloc_failure_codes_amended :
    (∀ (pp : List Char → Option (List Char)) (br po cmd : Int)
       (value : Option (List Char)),
      verify_value_path pp false br po cmd value = (PBSE_SYSTEM, value)) ∧
    (∀ (pdl : List Char → Option (List Char)) (br po cmd : Int) (v : List Char),
      v ≠ [] →
      verify_value_dependlist pdl false br po cmd (some v) = (-1, some v)) ∧
    (∀ (ghn : List Char → Option (List Char)) (br po cmd : Int) (v : List Char),
      v ≠ [] →
      verify_value_mgr_opr_acl_check ghn false br po cmd (some v) = -1) ∧
    (∀ (table : List EclAttrDef) (br po cmd : Int) (pattr : Attropl)
       (res : List Char) (prdef : EclAttrDef) (e : Int),
      pattr.resource = some res →
      eclFindRescDef table res = some prdef →
      runCheckers prdef br po cmd { name := res, value := pattr.value } none = (e, none) →
      e ≠ 0 →
      verify_value_resc table false br po cmd pattr none = (-1, none)) ∧
    (∀ (prdef : EclAttrDef) (br po cmd : Int) (buf : List Char) (p : Nat)
       (name : List Char) (m : Option (List Char)),
      strchrFrom (buf.set p nulChar) (p + 1) ',' = none →
      scanKnown prdef false br po cmd buf p name m =
        .ret PBSE_SYSTEM m (buf.set p nulChar)) ∧
    (0 < PBSE_SYSTEM ∧ PBSE_SYSTEM ≠ PBSE_BADATVAL ∧ (-1 : Int) < 0) := by
  refine ⟨?_, ?_, ?_, ?_, ?_, by decide, by decide, by decide⟩
  · intro pp br po cmd value
    rfl
  · intro pdl br po cmd v hv
    simp only [verify_value_dependlist]
    rw [if_neg hv]
    rfl
  · intro ghn br po cmd v hv
    simp only [verify_value_mgr_opr_acl_check]
    rw [if_neg hv]
    rfl
  · intro table br po cmd pattr res prdef e hres hfind hrun he
    simp only [verify_value_resc, hres, hfind, hrun]
    rw [if_pos ⟨he, trivial⟩]
    rw [pbse_to_txt, if_neg he]
    rfl
  · intro prdef br po cmd buf p name m hq
    simp [scanKnown, hq]

theorem alloc_failure_codes_amended_witness :
    verify_value_dependlist (fun v => some v) false 1 2 3 (some ['x']) =
      (-1, some ['x']) :=
  alloc_failure_codes_amended.2.1 (fun v => some v) 1 2 3 ['x'] (by decide)

/-- Table with one resource whose datatype checker always rejects, used
to exercise the fatal message-allocation path of `verify_value_resc`. -/
def rejectXTable : List EclAttrDef :=
  [{ at_name := ['x'],
     at_verify_datatype := some (fun _ m => (PBSE_BADATVAL, m)) }]

/-- C1 (counterexample): with the message allocation failing, the single
pair of the single chunk yields the Fatal sub-result -1 from
`verify_value_resc`, yet `verify_value_select` does not stop and return
it — only strictly positive codes short-circuit (`if (rc > 0)`), so the
fatal code is discarded and the spec is Accepted. -/
theorem select_fatal_not_short_circuited :
    verify_value_resc rejectXTable false 1 2 3
      { name := "select".toList, resource := some ['x'], value := some ['1'] }
      none = (-1, none) ∧
    verify_value_select rejectXTable false 1 2 3 "select".toList
      (some "x=1".toList) [some [(['x'], ['1'])]] none = (PBSE_NONE, none) ∧
    PBSE_NONE ≠ (-1 : Int) :=
  ⟨by decide, by decide, by decide⟩

/-- C1 (amended): `verify_value_select` iterates chunks left to right
and the pairs of a chunk in decoded order; it stops at the first
sub-result with a strictly positive (Rejected) code and returns it
unchanged; a chunk the decoder cannot parse is rejected outright with
`PBSE_BADATVAL` before any later chunk is examined; a non-positive
(Accepted or Fatal) sub-result does not stop the scan — the loop
continues with the threaded message slot and the sub-code is
discarded. -/
theorem select_short_circuit_amended :
    (∀ (table : List EclAttrDef) (alloc : Bool) (br po cmd : Int)
       (nm : List Char) (rest : List (Option (List (List Char × List Char))))
       (m : Option (List Char)),
      selectChunks table alloc br po cmd nm (none :: rest) m = (PBSE_BADATVAL, m)) ∧
    (∀ (table : List EclAttrDef) (alloc : Bool) (br po cmd : Int)
       (nm : List Char) (pairs : List (List Char × List Char))
       (rest : List (Option (List (List Char × List Char))))
       (m m' : Option (List Char)) (rc : Int),
      selectPairs table alloc br po cmd nm pairs m = (rc, m') → 0 < rc →
      selectChunks table alloc br po cmd nm (some pairs :: rest) m = (rc, m')) ∧
    (∀ (table : List EclAttrDef) (alloc : Bool) (br po cmd : Int)
       (nm : List Char) (pairs : List (List Char × List Char))
       (rest : List (Option (List (List Char × List Char))))
       (m m' : Option (List Char)) (rc : Int),
      selectPairs table alloc br po cmd nm pairs m = (rc, m') → rc ≤ 0 →
      selectChunks table alloc br po cmd nm (some pairs :: rest) m =
        selectChunks table alloc br po cmd nm rest m') ∧
    (∀ (table : List EclAttrDef) (alloc : Bool) (br po cmd : Int)
       (nm : List Char) (kv : List Char × List Char)
       (pairs : List (List Char × List Char)) (m m' : Option (List Char)) (rc : Int),
      verify_value_resc table alloc br po cmd
        { name := nm, resource := some kv.1, value := some kv.2 } m = (rc, m') →
      0 < rc →
      selectPairs table alloc br po cmd nm (kv :: pairs) m = (rc, m')) ∧
    (∀ (table : List EclAttrDef) (alloc : Bool) (br po cmd : Int)
       (nm : List Char) (kv : List Char × List Char)
       (pairs : List (List Char × List Char)) (m m' : Option (List Char)) (rc : Int),
      verify_value_resc table alloc br po cmd
        { name := nm, resource := some kv.1, value := some kv.2 } m = (rc, m') →
      rc ≤ 0 →
      selectPairs table alloc br po cmd nm (kv :: pairs) m =
        selectPairs table alloc br po cmd nm pairs m) := by
  refine ⟨?_, ?_, ?_, ?_, ?_⟩
  · intro table alloc br po cmd nm rest m
    rfl
  · intro table alloc br po cmd nm pairs rest m m' rc hp hpos
    simp only [selectChunks, hp]
    rw [if_pos hpos]
  · intro table alloc br po cmd nm pairs rest m m' rc hp hle
    simp only [selectChunks, hp]
    rw [if_neg (not_lt.mpr hle)]
  · intro table alloc br po cmd nm kv pairs m m' rc hr hpos
    simp only [selectPairs, hr]
    rw [if_pos hpos]
  · intro table alloc br po cmd nm kv pairs m m' rc hr hle
    simp only [selectPairs, hr]
    rw [if_neg (not_lt.mpr hle)]

theorem select_short_circuit_amended_witness :
    selectChunks rejectXTable true 1 2 3 "select".toList
      [some [(['x'], ['1'])], some [(['y'], ['2'])]] none =
      (PBSE_BADATVAL,
        some ("Illegal attribute or resource value".toList ++ [' '] ++
          "select".toList ++ ['.'] ++ ['x'])) :=
  select_short_circuit_amended.2.1 rejectXTable true 1 2 3 "select".toList
    [(['x'], ['1'])] [some [(['y'], ['2'])]] none
    (some ("Illegal attribute or resource value".toList ++ [' '] ++
      "select".toList ++ ['.'] ++ ['x']))
    PBSE_BADATVAL (by decide) (by decide)

/-- Resource table holding one known resource with no checkers, used for
the concrete preemption-target runs. -/
def sampleRescTable : List EclAttrDef := [{ at_name := "ncpus".toList }]

/-- Reservation-attribute table holding the `queue` attribute with no
checkers, used for the concrete preemption-target runs. -/
def sampleResvTable : List EclAttrDef := [{ at_name := "queue".toList }]

/-- C3: a value whose white-space-skipped head matches `NONE`
case-insensitively is accepted iff the whole (space-skipped) value
equals `NONE` case-insensitively, and the buffer and message are left
untouched. -/
theorem preempt_none_exact_match :
    ∀ (rescT resvT : List EclAttrDef) (alloc : Bool) (br po cmd : Int)
      (fuel : Nat) (buf : List Char) (m : Option (List Char)),
    lowerList ((buf.dropWhile isspaceC).take TARGET_NONE.length) = lowerList TARGET_NONE →
    verify_value_preempt_targets rescT resvT alloc br po cmd fuel (some buf) m =
      some ((if lowerList (buf.dropWhile isspaceC) = lowerList TARGET_NONE
        then PBSE_NONE else PBSE_BADATVAL), m, some buf) := by
  intro rescT resvT alloc br po cmd fuel buf m h
  have hne : buf ≠ [] := by
    intro hbuf
    rw [hbuf] at h
    exact absurd h (by decide)
  simp only [verify_value_preempt_targets]
  rw [if_neg hne, if_pos h]

theorem preempt_none_exact_match_witness :
    verify_value_preempt_targets [] [] true 1 2 3 5 (some "none extra".toList) none =
      some ((if lowerList ("none extra".toList.dropWhile isspaceC) = lowerList TARGET_NONE
        then PBSE_NONE else PBSE_BADATVAL), none, some "none extra".toList) :=
  preempt_none_exact_match [] [] true 1 2 3 5 "none extra".toList none (by decide)

/-- C7 (counterexample): on the strdup-failure return path the NUL
written over the `=` of `Resource_List.ncpus=4` (index 19) is not
restored: the function returns `PBSE_SYSTEM` with the caller's buffer
mutated, so not every return path leaves the buffer byte-for-byte
intact. -/
theorem preempt_fatal_leaves_buffer_mutated :
    verify_value_preempt_targets sampleRescTable sampleResvTable false 1 2 3 5
      (some "Resource_List.ncpus=4".toList) none =
      some (PBSE_SYSTEM, none, some ("Resource_List.ncpus=4".toList.set 19 nulChar)) ∧
    "Resource_List.ncpus=4".toList.set 19 nulChar ≠ "Resource_List.ncpus=4".toList :=
  ⟨by decide, by decide⟩

/-- C7 (amended): on every return path that does not go through a failed
allocation — i.e. on every terminating run with allocations succeeding —
the caller's buffer is returned byte-for-byte identical: all temporary
NUL overwrites of `=` and `,` are undone; only the fatal
`PBSE_SYSTEM` strdup-failure paths leave the buffer mutated. -/
theorem preempt_buffer_restored_amended :
    ∀ (rescT resvT : List EclAttrDef) (br po cmd : Int) (fuel : Nat)
      (buf : List Char) (m : Option (List Char)) (c : Int)
      (m' b : Option (List Char)),
    verify_value_preempt_targets rescT resvT true br po cmd fuel (some buf) m =
      some (c, m', b) → b = some buf := by
  intro rescT resvT br po cmd fuel buf m c m' b h
  simp only [verify_value_preempt_targets] at h
  by_cases hempty : buf = []
  · rw [if_pos hempty] at h
    cases h
    rfl
  · rw [if_neg hempty] at h
    by_cases hpfx : lowerList ((buf.dropWhile isspaceC).take TARGET_NONE.length) =
        lowerList TARGET_NONE
    · rw [if_pos hpfx] at h
      cases h
      rfl
    · rw [if_neg hpfx] at h
      split at h
      · cases h
      next c0 m0 b0 heq =>
        cases h
        have hb0 : b0 = buf := by
          simpa [passBuf] using preemptScan_true_buf heq
        rw [hb0]
      next f0 v0 m0 b0 heq =>
        have hb0 : b0 = buf := by
          simpa [passBuf] using preemptScan_true_buf heq
        rw [if_neg (by simp)] at h
        split at h
        · cases h
        next c1 m1 b1 heq1 =>
          cases h
          rw [hb0]
        next f1 v1 m1 b1 heq1 =>
          cases h
          rw [hb0]

theorem preempt_buffer_restored_amended_witness :
    (some ("queue=batch".toList) : Option (List Char)) = some ("queue=batch".toList) :=
  preempt_buffer_restored_amended sampleRescTable sampleResvTable 1 2 3 5
    "queue=batch".toList none PBSE_NONE none (some "queue=batch".toList) (by decide)

/-- C2: for a value that is not (case-insensitively, after white-space
skipping) the literal `NONE`, the preemption-target verifier accepts
only if one of the two namespace keywords occurs in the value
(`Resource_List` case-sensitively, `queue` case-insensitively), and a
value containing neither keyword is rejected with `PBSE_BADATVAL`. -/
theorem preempt_accept_requires_keyword :
    ∀ (rescT resvT : List EclAttrDef) (br po cmd : Int) (fuel : Nat)
      (buf : List Char) (m : Option (List Char)),
    lowerList (buf.dropWhile isspaceC) ≠ lowerList TARGET_NONE →
    ((∀ (c : Int) (m' b : Option (List Char)),
      verify_value_preempt_targets rescT resvT true br po cmd fuel (some buf) m =
        some (c, m', b) → c = PBSE_NONE →
      ((findSub buf ATTR_l).isSome = true ∨
       (findSub (lowerList buf) ATTR_queue).isSome = true)) ∧
     ((findSub buf ATTR_l).isSome = false →
      (findSub (lowerList buf) ATTR_queue).isSome = false →
      1 ≤ fuel →
      verify_value_preempt_targets rescT resvT true br po cmd fuel (some buf) m =
        some (PBSE_BADATVAL, m, some buf))) := by
  intro rescT resvT br po cmd fuel buf m hnone
  constructor
  · intro c m' b h hc
    simp only [verify_value_preempt_targets] at h
    by_cases hempty : buf = []
    · rw [if_pos hempty] at h
      cases h
      exact absurd hc (by decide)
    · rw [if_neg hempty] at h
      by_cases hpfx : lowerList ((buf.dropWhile isspaceC).take TARGET_NONE.length) =
          lowerList TARGET_NONE
      · rw [if_pos hpfx] at h
        cases h
        rw [if_neg hnone] at hc
        exact absurd hc (by decide)
      · rw [if_neg hpfx] at h
        split at h
        · cases h
        next c0 m0 b0 heq =>
          cases h
          exact absurd hc (by simpa [PBSE_NONE] using preemptScan_early_ne_zero heq)
        next f0 v0 m0 b0 heq =>
          have hb0 : b0 = buf := by
            simpa [passBuf] using preemptScan_true_buf heq
          rw [if_neg (by simp)] at h
          split at h
          · cases h
          next c1 m1 b1 heq1 =>
            cases h
            exact absurd hc (by simpa [PBSE_NONE] using preemptScan_early_ne_zero heq1)
          next f1 v1 m1 b1 heq1 =>
            cases h
            have hf1 : f1 = true := by
              by_contra hf
              rw [if_neg hf] at hc
              exact absurd hc (by decide)
            rw [hf1] at heq1
            rcases preemptScan_done_found heq1 with hf0 | hocc
            · rw [hf0] at heq
              rcases preemptScan_done_found heq with hff | hocc0
              · cases hff
              · left
                simpa [strstrFrom] using hocc0
            · right
              rw [hb0] at hocc
              have : (findSub (lowerList (buf.drop v0)) ATTR_queue).isSome = true := by
                simpa [strstrFrom] using hocc
              rw [show lowerList (buf.drop v0) = (lowerList buf).drop v0 from
                (List.map_drop lowerChar buf v0).symm ▸ rfl] at this
              exact findSub_drop_isSome this
  · intro hrl hq hfuel
    simp only [verify_value_preempt_targets]
    by_cases hempty : buf = []
    · rw [if_pos hempty]
    · rw [if_neg hempty]
      by_cases hpfx : lowerList ((buf.dropWhile isspaceC).take TARGET_NONE.length) =
          lowerList TARGET_NONE
      · rw [if_pos hpfx, if_neg hnone]
      · rw [if_neg hpfx]
        obtain ⟨n, rfl⟩ : ∃ n, fuel = n + 1 := ⟨fuel - 1, by omega⟩
        have h0 : strstrFrom buf 0 ATTR_l = none := by
          cases hfind : findSub buf ATTR_l with
          | none => simp [strstrFrom, hfind]
          | some k => simp [hfind] at hrl
        have h1 : strstrFrom (lowerList (buf.drop 0)) 0 ATTR_queue = none := by
          cases hfind : findSub (lowerList buf) ATTR_queue with
          | none => simp [strstrFrom, hfind]
          | some k => simp [hfind] at hq
        simp only [preemptScan, h0, h1]
        simp

theorem preempt_accept_requires_keyword_witness :
    verify_value_preempt_targets [] [] true 1 2 3 1 (some "abc".toList) none =
      some (PBSE_BADATVAL, none, some "abc".toList) :=
  (preempt_accept_requires_keyword [] [] 1 2 3 1 "abc".toList none (by decide)).2
    (by decide) (by decide) (by decide)
